import Mathlib

/-
Verification development for the zntrack repository.

The definitions below are a shallow embedding of the Python sources:
  * `src/zntrack/node.py`    (dataclass-based `Node`: `save`, `from_rev`,
    `state`, `update_run_count`)
  * `src/zntrack/state.py`   (`NodeStatus`: `restarted`, `get_stage_hash`,
    `extend_plots`)
  * `src/zntrack/core/node.py` (legacy `Node`: `nwd`, `from_rev`, `load`)
  * `src/zntrack/core/base.py` (legacy `Node.update_options`)
Python dictionaries are modelled as association lists, file systems as
finite key/value stores, and the distinguished sentinel objects
`ZNTRACK_LAZY_VALUE` / `NOT_AVAILABLE` as constructors of the value type.
Parts of the repository that the sources do not contain (the sentinel/enum
module `zntrack/config.py`, the plugin machinery, the descriptor getter and
`zntrack/utils/node_wd.py`) are modelled from the specification; each such
definition carries a doc comment starting with `Modelled from the spec:`.
-/

namespace ZnTrack

/-- Python value model: the two sentinel objects from `zntrack/config.py`
(`ZNTRACK_LAZY_VALUE`, `NOT_AVAILABLE`), `None`, integers, strings, and
pandas DataFrames represented as a list of rows (each row a list of
column/value entries with integer cells, which is all the claims need). -/
inductive PyValue where
  | lazySentinel
  | notAvailable
  | pyNone
  | pyInt (n : Int)
  | pyStr (s : String)
  | pyDF (rows : List (List (String × Int)))
deriving DecidableEq, Repr

/-- Whether a value is one of the two sentinel objects, mirroring
`any(value is x for x in [ZNTRACK_LAZY_VALUE, NOT_AVAILABLE])` in
`Node.save` (src/zntrack/node.py line 47). -/
def PyValue.isSentinel : PyValue → Bool
  | .lazySentinel => true
  | .notAvailable => true
  | _ => false

/-- Lookup in an association list (Python dict read `d[k]`, first match). -/
def alookup {α β : Type} [DecidableEq α] : List (α × β) → α → Option β
  | [], _ => none
  | (k, v) :: t, a => if k = a then some v else alookup t a

/-- Python dict assignment `d[k] = v`: replace the entry if the key is
present, otherwise append it. -/
def aupdate {α β : Type} [DecidableEq α] : List (α × β) → α → β → List (α × β)
  | [], a, b => [(a, b)]
  | (k, v) :: t, a, b => if k = a then (a, b) :: t else (k, v) :: aupdate t a b

/-- Modelled from the spec: the `ZnTrackOptionEnum` field roles of the
missing `zntrack/config.py` (parameter, dependency, output, metric, plot),
as used through `field.metadata.get(ZNTRACK_OPTION)` in
`NodeStatus.extend_plots`. -/
inductive ZnTrackOptionEnum where
  | PARAMS
  | DEPS
  | OUTS
  | METRICS
  | PLOTS
deriving DecidableEq, Repr

/-- Python `f"{option_type}"` rendering of an optional role, `None` when the
field carries no `ZNTRACK_OPTION` metadata. -/
def optionRepr : Option ZnTrackOptionEnum → String
  | none => "None"
  | some .PARAMS => "ZnTrackOptionEnum.PARAMS"
  | some .DEPS => "ZnTrackOptionEnum.DEPS"
  | some .OUTS => "ZnTrackOptionEnum.OUTS"
  | some .METRICS => "ZnTrackOptionEnum.METRICS"
  | some .PLOTS => "ZnTrackOptionEnum.PLOTS"

/-- Modelled from the spec: the `NodeStatusEnum` lifecycle states of the
missing `zntrack/config.py`; the spec lists CREATED, RUNNING, FINISHED,
FAILED and UNKNOWN and `node.py`/`state.py` use CREATED, RUNNING and
FINISHED. -/
inductive NodeStatusEnum where
  | CREATED
  | RUNNING
  | FINISHED
  | FAILED
  | UNKNOWN
deriving DecidableEq, Repr

/-- A node class: its `__name__` and the fields declared by the user
subclass with their optional `ZNTRACK_OPTION` role metadata.  The inherited
`name` field of `Node` (src/zntrack/node.py line 28) is added by
`fieldNames` below, so `dataclasses.fields(cls)` is `"name"` followed by
the user fields. -/
structure NodeClass where
  clsName : String
  userFields : List (String × Option ZnTrackOptionEnum)
deriving DecidableEq, Repr

/-- The declared dataclass fields of a node class, in declaration order:
the inherited `name` field first, then the user fields
(`dataclasses.fields(cls)`). -/
def NodeClass.fieldNames (c : NodeClass) : List String :=
  "name" :: c.userFields.map Prod.fst

/-- Field/role table as iterated by `NodeStatus.extend_plots`: the `name`
field carries no role metadata. -/
def NodeClass.fieldOptions (c : NodeClass) : List (String × Option ZnTrackOptionEnum) :=
  ("name", none) :: c.userFields

/-- The dictionary produced by `NodeStatus.to_dict()`
(src/zntrack/state.py lines 123-127): every dataclass field of
`NodeStatus` except `node`. -/
structure StateDict where
  name : Option String
  remote : Option String
  rev : Option String
  run_count : Nat
  state : NodeStatusEnum
  lazy_evaluation : Bool
  tmp_path : Option String
  group : Option (List String)
deriving DecidableEq, Repr

/-- Whether the node was restarted (src/zntrack/state.py lines 49-52:
`return self.run_count > 1`). -/
def StateDict.restarted (s : StateDict) : Bool :=
  s.run_count > 1

/-- A node instance: its class, its `uuid`, the dataclass-field slots of
`self.__dict__`, and `self.__dict__["state"]` (absent until the `state`
property or `from_rev` creates it). -/
structure NodeInst where
  cls : NodeClass
  uuid : String
  dict : List (String × PyValue)
  stateDict : Option StateDict
deriving DecidableEq, Repr

/-- The `name` attr of the node as an optional string (`self.name`,
a `str | None` dataclass field). -/
def NodeInst.nameAttr (n : NodeInst) : Option String :=
  match alookup n.dict "name" with
  | some (.pyStr s) => some s
  | _ => none

/-- The default `NodeStatus` dictionary installed by the `state` property
when `"state" not in self.__dict__` (src/zntrack/node.py lines 105-118). -/
def defaultStateDict (name : Option String) : StateDict :=
  { name := name
    remote := some "."
    rev := none
    run_count := 0
    state := .CREATED
    lazy_evaluation := true
    tmp_path := none
    group := none }

/-- The `state` property of `Node` (src/zntrack/node.py lines 105-118):
returns the stored state dictionary, or the CREATED default when none is
stored yet. -/
def NodeInst.state (n : NodeInst) : StateDict :=
  n.stateDict.getD (defaultStateDict n.nameAttr)

/-- The on-disk store a node is loaded from: the per-node
`node-meta.json` run counters and the persisted field values keyed by
(node name, field name). -/
structure Store where
  nodeMeta : List (String × Nat)
  values : List ((String × String) × PyValue)
deriving DecidableEq, Repr

/-- Errors surfaced while reading node attributes. -/
inductive ZnErr where
  | nodeNotAvailable (field : String)
  | attributeError (field : String)
deriving DecidableEq, Repr

/-- Modelled from the spec: the descriptor getter of the missing
`zntrack/fields` machinery (spec §4.1/§4.4/§4.5).  Reading a field returns
the stored value directly; a value that is the deferred sentinel triggers
the per-field load from the store and caches the result in `__dict__`;
a deferred value that is truly absent from the store raises the
node-not-available error. -/
def NodeInst.getattrField (store : Store) (n : NodeInst) (f : String) :
    Except ZnErr (PyValue × NodeInst) :=
  match alookup n.dict f with
  | none => .error (.attributeError f)
  | some v =>
    if v = .lazySentinel then
      match alookup store.values (n.nameAttr.getD "", f) with
      | some w => .ok (w, { n with dict := aupdate n.dict f w })
      | none => .error (.nodeNotAvailable f)
    else .ok (v, n)

/-- Eager loading pass of `from_rev` with `lazy_evaluation=False`
(src/zntrack/node.py lines 99-101): `getattr` every declared field in
order, returning the updated instance and the list of fields read. -/
def eagerLoad (store : Store) : NodeInst → List String →
    Except ZnErr (NodeInst × List String)
  | n, [] => .ok (n, [])
  | n, f :: fs =>
    match n.getattrField store f with
    | .error e => .error e
    | .ok (_, n') =>
      match eagerLoad store n' fs with
      | .error e => .error e
      | .ok (n'', tr) => .ok (n'', f :: tr)

/-- `Node.from_rev` (src/zntrack/node.py lines 62-103): build the keyword
dictionary mapping every declared field to `ZNTRACK_LAZY_VALUE`, overwrite
the `name` entry with the requested name (the class name when `None`),
read `run_count` from `node-meta.json` defaulting to 0 when the file does
not exist, install the state dictionary (RUNNING when `running` else
FINISHED), and with `lazy_evaluation=False` eagerly `getattr` every
declared field.  The second component of the result is the list of fields
read during construction. -/
def NodeClass.from_rev (cls : NodeClass) (store : Store) (uuid : String)
    (name : Option String) (remote : Option String) (rev : Option String)
    (running : Bool) (lazy_evaluation : Bool) :
    Except ZnErr (NodeInst × List String) :=
  let nm := name.getD cls.clsName
  let lazyValues : List (String × PyValue) :=
    cls.fieldNames.map (fun f => (f, PyValue.lazySentinel))
  let dict := aupdate lazyValues "name" (.pyStr nm)
  let run_count := (alookup store.nodeMeta nm).getD 0
  let st : StateDict :=
    { name := some nm
      remote := remote
      rev := rev
      run_count := run_count
      state := if running then .RUNNING else .FINISHED
      lazy_evaluation := lazy_evaluation
      tmp_path := none
      group := none }
  let inst : NodeInst := { cls := cls, uuid := uuid, dict := dict, stateDict := some st }
  if lazy_evaluation then .ok (inst, [])
  else eagerLoad store inst cls.fieldNames

/-- Errors raised by `Node.save`: the `ValueError` of
src/zntrack/node.py lines 48-50, or an error escaping from the attr
read itself. -/
inductive SaveError where
  | valueError (field : String)
  | readError (e : ZnErr)
deriving DecidableEq, Repr

/-- The field an error of `Node.save` names. -/
def SaveError.field : SaveError → String
  | .valueError f => f
  | .readError (.nodeNotAvailable f) => f
  | .readError (.attributeError f) => f

/-- The message of the `ValueError` raised by `Node.save`
(src/zntrack/node.py lines 48-50). -/
def saveErrorMessage (field : String) : String :=
  "Field \x27" ++ field ++ "\x27 is not set. Please set it before saving."

/-- One plugin pass of `Node.save` (src/zntrack/node.py lines 45-51):
`getattr` each declared field in order, raise the `ValueError` when the
value is one of the two sentinel objects, otherwise hand the field to the
plugin; returns the instance (attribute reads cache into `__dict__`) and
the list of fields written. -/
def savePass (store : Store) : NodeInst → List String →
    Except SaveError (NodeInst × List String)
  | n, [] => .ok (n, [])
  | n, f :: fs =>
    match n.getattrField store f with
    | .error e => .error (.readError e)
    | .ok (v, n') =>
      if v.isSentinel then .error (.valueError f)
      else
        match savePass store n' fs with
        | .error e => .error e
        | .ok (n'', ws) => .ok (n'', f :: ws)

/-- The nested plugin loop of `Node.save` (src/zntrack/node.py lines
44-51): for every configured plugin, one pass over all declared fields.
Writes are tagged (plugin, field).  Writes performed before a raise are
dropped from the result, as nothing in the claims observes them. -/
def saveLoop (store : Store) : NodeInst → List String →
    Except SaveError (NodeInst × List (String × String))
  | n, [] => .ok (n, [])
  | n, p :: ps =>
    match savePass store n n.cls.fieldNames with
    | .error e => .error e
    | .ok (n', fs) =>
      match saveLoop store n' ps with
      | .error e => .error e
      | .ok (n'', ws) => .ok (n'', fs.map (fun f => (p, f)) ++ ws)

/-- `Node.save` (src/zntrack/node.py lines 43-53): run the plugin loop;
only on success touch the `state` property (materializing the default
when absent) and set its `state` entry to FINISHED — the assignment on
line 53 sits after the loop, so a raise leaves the state untouched. -/
def NodeInst.save (store : Store) (plugins : List String) (n : NodeInst) :
    Except SaveError (NodeInst × List (String × String)) :=
  match saveLoop store n plugins with
  | .error e => .error e
  | .ok (n', ws) =>
    .ok ({ n' with stateDict := some { n'.state with state := .FINISHED } }, ws)

/-- `Node.update_run_count` (src/zntrack/node.py lines 120-135): increment
`run_count` in the stored state dictionary, or — when `__dict__["state"]`
is absent and the lookup raises `KeyError` — install a fresh RUNNING state
dictionary with `run_count = 1`; then write `node-meta.json` holding the
uuid and the new counter (the written pair is the second component). -/
def NodeInst.update_run_count (n : NodeInst) : NodeInst × (String × Nat) :=
  let newState : StateDict :=
    match n.stateDict with
    | some s => { s with run_count := s.run_count + 1 }
    | none =>
      { name := n.nameAttr
        remote := some "."
        rev := none
        run_count := 1
        state := .RUNNING
        lazy_evaluation := true
        tmp_path := none
        group := none }
  let n' : NodeInst := { n with stateDict := some newState }
  (n', (n.uuid, n'.state.run_count))

/-- The invalid-option message of `NodeStatus.extend_plots` for a field
whose role is not plots (src/zntrack/state.py line 145). -/
def wrongTypeMessage (attr : String) (opt : Option ZnTrackOptionEnum) : String :=
  "Can not use self." ++ attr ++ " with type " ++ optionRepr opt ++
    " for \x27plots\x27."

/-- The invalid-option message of `NodeStatus.extend_plots` for an unknown
attribute (src/zntrack/state.py line 147). -/
def unknownAttributeMessage (attr : String) (clsName : String) : String :=
  "Unable to find \x27self." ++ attr ++ "\x27 in " ++ clsName ++ "."

/-- `NodeStatus.extend_plots` (src/zntrack/state.py lines 129-160): walk
the declared fields for `attribute`; a match whose `ZNTRACK_OPTION`
metadata is not PLOTS raises `InvalidOptionError` naming the attr and
its role, no match raises `InvalidOptionError` naming the attribute; for a
plots field, read the current value (a `NodeNotAvailableError` or a
sentinel value yields an empty DataFrame), append the given row, store the
result back, and notify every plugin.  The second result component lists
the plugins notified. -/
def extendPlots (store : Store) (plugins : List String) (n : NodeInst)
    (attr : String) (data : List (String × Int)) :
    Except String (NodeInst × List String) :=
  match alookup n.cls.fieldOptions attr with
  | none => .error (unknownAttributeMessage attr n.cls.clsName)
  | some opt =>
    if opt = some .PLOTS then
      match n.getattrField store attr with
      | .error (.attributeError f) => .error ("AttributeError: " ++ f)
      | .error (.nodeNotAvailable _) =>
        .ok ({ n with dict := aupdate n.dict attr (.pyDF [data]) }, plugins)
      | .ok (v, n₁) =>
        match v with
        | .pyDF rows =>
          .ok ({ n₁ with dict := aupdate n₁.dict attr (.pyDF (rows ++ [data])) },
            plugins)
        | .lazySentinel =>
          .ok ({ n₁ with dict := aupdate n₁.dict attr (.pyDF [data]) }, plugins)
        | .notAvailable =>
          .ok ({ n₁ with dict := aupdate n₁.dict attr (.pyDF [data]) }, plugins)
        | _ => .error "TypeError: cannot concatenate object with DataFrame"
    else .error (wrongTypeMessage attr opt)

/-- The key filter of `NodeStatus.get_stage_hash`
(src/zntrack/state.py lines 108-110): keep only the `cmd`, `deps` and
`params` entries of the stage lockfile. -/
def filterStageLock (lock : List (String × PyValue)) : List (String × PyValue) :=
  lock.filter (fun kv => kv.1 == "cmd" || kv.1 == "deps" || kv.1 == "params")

/-- `NodeStatus.get_stage_hash` (src/zntrack/state.py lines 93-111):
raise `NotImplementedError` when `include_outs` is requested, otherwise
hash the filtered lockfile.  `dict_sha256` is an external dvc function and
is passed in as `digest`. -/
def getStageHash (digest : List (String × PyValue) → String)
    (lock : List (String × PyValue)) (include_outs : Bool) : Except String String :=
  if include_outs then .error "Include outs is not implemented yet."
  else .ok (digest (filterStageLock lock))

/-- The legacy `NodeStatusResults` enum (src/zntrack/core/node.py lines
21-44). -/
inductive NodeStatusResults where
  | UNKNOWN
  | PENDING
  | RUNNING
  | FINISHED
  | FAILED
deriving DecidableEq, Repr

/-- The legacy `NodeStatus` dataclass (src/zntrack/core/node.py lines
47-68). -/
structure LegacyNodeStatus where
  loaded : Bool
  results : NodeStatusResults
  origin : String
  rev : String
deriving DecidableEq, Repr

/-- A legacy node instance (src/zntrack/core/node.py): `_state` is `None`
until the `state` property materializes it. -/
structure LegacyNodeInst where
  clsName : String
  name : String
  dict : List (String × PyValue)
  status : Option LegacyNodeStatus
deriving DecidableEq, Repr

/-- The legacy `state` property (src/zntrack/core/node.py lines 99-104):
`NodeStatus(False, UNKNOWN)` when `_state` is `None`. -/
def LegacyNodeInst.state (n : LegacyNodeInst) : LegacyNodeStatus :=
  n.status.getD { loaded := false, results := .UNKNOWN, origin := "workspace", rev := "HEAD" }

/-- The legacy `nwd` property (src/zntrack/core/node.py lines 106-109):
`pathlib.Path("nodes", name)`, with paths as component lists. -/
def legacyNwd (name : String) : List String :=
  ["nodes", name]

/-- The legacy `Node.load` (src/zntrack/core/node.py lines 122-129): run
every field descriptor's load (the `Field` machinery is outside the node
module and enters as the function `loadFields`), then set
`state.loaded = True`. -/
def legacyLoad (loadFields : List (String × PyValue) → List (String × PyValue))
    (n : LegacyNodeInst) : LegacyNodeInst :=
  { n with dict := loadFields n.dict, status := some { n.state with loaded := true } }

/-- The legacy `Node.from_rev` (src/zntrack/core/node.py lines 131-142):
allocate a bare instance, set the name (class name when `None`), set
`_state = NodeStatus(False, UNKNOWN, origin, rev)`, and call `load()`
before returning. -/
def legacyFromRev (clsName : String)
    (loadFields : List (String × PyValue) → List (String × PyValue))
    (name : Option String) (origin : String) (rev : String) : LegacyNodeInst :=
  let n : LegacyNodeInst :=
    { clsName := clsName
      name := name.getD clsName
      dict := []
      status := some { loaded := false, results := .UNKNOWN, origin := origin, rev := rev } }
  legacyLoad loadFields n

/-- The two exception kinds tolerated by the legacy option loading
(src/zntrack/core/base.py line 129). -/
inductive LoadErr where
  | fileNotFound
  | keyError
deriving DecidableEq, Repr

/-- A v0.3-era node as acted on by `update_options`
(src/zntrack/core/base.py). -/
structure OldNode where
  node_name : String
  dict : List (String × PyValue)
  is_loaded : Bool
deriving DecidableEq, Repr

/-- The legacy `Node.update_options` (src/zntrack/core/base.py lines
120-135): for every declared option try `get_data_from_files` (the
descriptor machinery enters as `getData`) and store the result in
`__dict__`; a `FileNotFoundError` or `KeyError` is swallowed, leaving the
previous (default) entry; finally set `is_loaded = True`. -/
def updateOptions (getData : String → Except LoadErr PyValue)
    (options : List String) (n : OldNode) : OldNode :=
  let d := options.foldl
    (fun d opt =>
      match getData opt with
      | .ok v => aupdate d opt v
      | .error _ => d)
    n.dict
  { n with dict := d, is_loaded := true }

/-- Modelled from the spec: the candidate names tried by automatic naming
(spec §4.2) — the class name itself, then `ClassName_1`, `ClassName_2`,
and so on. -/
def makeSuffixName (base : String) (k : Nat) : String :=
  if k = 0 then base else base ++ "_" ++ toString k

/-- Modelled from the spec: resolve one automatic node name against the
names already assigned in the graph (spec §4.2): starting from the bare
class name, append `_1`, `_2`, … in order until the candidate does not
collide with an existing name.  With `n` existing names one of the first
`n + 1` candidates is always free, so the bounded search never falls
through to the default. -/
def resolveAutoName (existing : List String) (base : String) : String :=
  match (List.range (existing.length + 1)).find?
      (fun k => !(existing.contains (makeSuffixName base k))) with
  | some k => makeSuffixName base k
  | none => makeSuffixName base (existing.length + 1)

/-- Modelled from the spec: assign automatic names to a sequence of nodes
(given by their class names) in order of first occurrence (spec §4.3
"Resolve automatic names deterministically by first-seen order"). -/
def assignAutoNames (bases : List String) : List String :=
  bases.foldl (fun acc b => acc ++ [resolveAutoName acc b]) []

/-- Modelled from the spec: the persisted name of a node named `x`
declared inside a group `g` is `g_x` (spec §8 "a node named `X` inside a
group `G` receives persisted name `G_X`"). -/
def groupNodeName (g x : String) : String :=
  g ++ "_" ++ x

/-- Modelled from the spec: strip the immediate enclosing group prefix
`g_` from a node name (spec §4.2 "`<local-name>` is the node's name with
the immediate enclosing group prefix stripped"). -/
def stripGroupPfx (g name : String) : String :=
  if (g.data ++ ['_']).isPrefixOf name.data then
    (name.data.drop (g.data.length + 1)).asString
  else name

/-- Modelled from the spec: the missing `zntrack/utils/node_wd.py`
`get_nwd` (spec §4.2): an explicit working-directory override recorded in
the metadata file takes precedence; otherwise the path is
`nodes/<group-path>/<local-name>` computed from the group information
carried by the instance, and `nodes/<name>` when no group is known.
Paths are component lists. -/
def getNwd (ov : Option (List String)) (group : Option (List String))
    (name : String) : List String :=
  match ov with
  | some p => p
  | none =>
    match group with
    | some gs => "nodes" :: gs ++ [stripGroupPfx (gs.getLast?.getD "") name]
    | none => ["nodes", name]

/-- The working directory of a node instance: `get_nwd` applied to the
optional `zntrack.json` override, the group recorded in the instance's
state, and its name. -/
def NodeInst.nwd (ov : Option (List String)) (n : NodeInst) : List String :=
  getNwd ov n.state.group (n.nameAttr.getD "")

/-- Modelled from the spec: the on-disk effect of the plugin save calls
issued by `Node.save` — every declared field's current value is written
under the key (node name, field name) (spec §4.4: per-node result files
and parameter-file sections keyed by the node name and field name). -/
def storeFromSave (nm : String) (dict : List (String × PyValue)) (store : Store) : Store :=
  { store with
    values := dict.foldl (fun vs fv => aupdate vs (nm, fv.1) fv.2) store.values }

/-- The write trace produced by a successful `Node.save`: for every
configured plugin in order, one write per declared field in order. -/
def pluginWrites (plugins fields : List String) : List (String × String) :=
  match plugins with
  | [] => []
  | p :: ps => fields.map (fun f => (p, f)) ++ pluginWrites ps fields

/-
Helper lemmas shared by the claim theorems.
-/

theorem alookup_aupdate_self {α β : Type} [DecidableEq α]
    (l : List (α × β)) (a : α) (b : β) : alookup (aupdate l a b) a = some b := by
  induction l with
  | nil => simp [aupdate, alookup]
  | cons h t ih =>
      obtain ⟨k, v⟩ := h
      by_cases hk : k = a <;> simp [aupdate, alookup, hk, ih]

theorem alookup_aupdate_ne {α β : Type} [DecidableEq α]
    (l : List (α × β)) (a a' : α) (b : β) (h : a ≠ a') :
    alookup (aupdate l a b) a' = alookup l a' := by
  induction l with
  | nil => simp [aupdate, alookup, h]
  | cons hd t ih =>
      obtain ⟨k, v⟩ := hd
      by_cases hk : k = a
      · subst hk
        simp [aupdate, alookup, h]
      · simp [aupdate, alookup, hk, ih]

theorem alookup_const_map {α β : Type} [DecidableEq α]
    (l : List α) (c : β) (x : α) (hx : x ∈ l) :
    alookup (l.map (fun a => (a, c))) x = some c := by
  induction l with
  | nil => cases hx
  | cons h t ih =>
      rcases List.mem_cons.mp hx with he | ht
      · simp [alookup, he]
      · by_cases hk : h = x <;> simp [alookup, hk, ih ht]

/-- Closed form of `from_rev` with `lazy_evaluation = True`: the
dictionary binds `name` to the requested name and every user field to the
lazy sentinel; the state dictionary is FINISHED (RUNNING when `running`)
with the run count read from the store; no field is read. -/
theorem from_rev_lazy_eq (cls : NodeClass) (store : Store) (u : String)
    (name remote rev : Option String) (running : Bool) :
    cls.from_rev store u name remote rev running true =
      .ok ({ cls := cls, uuid := u,
             dict := ("name", .pyStr (name.getD cls.clsName)) ::
               (cls.userFields.map Prod.fst).map (fun f => (f, PyValue.lazySentinel)),
             stateDict := some
               { name := some (name.getD cls.clsName), remote := remote, rev := rev,
                 run_count := (alookup store.nodeMeta (name.getD cls.clsName)).getD 0,
                 state := if running then .RUNNING else .FINISHED,
                 lazy_evaluation := true, tmp_path := none, group := none } }, []) := by
  simp [NodeClass.from_rev, NodeClass.fieldNames, aupdate]

theorem getattrField_stateDict (store : Store) (n : NodeInst) (f : String)
    (v : PyValue) (n' : NodeInst) (h : n.getattrField store f = .ok (v, n')) :
    n'.stateDict = n.stateDict ∧ n'.cls = n.cls ∧ n'.uuid = n.uuid := by
  cases hx : alookup n.dict f with
  | none => simp [NodeInst.getattrField, hx] at h
  | some v0 =>
    by_cases hl : v0 = PyValue.lazySentinel
    · cases hy : alookup store.values (n.nameAttr.getD "", f) with
      | none => simp [NodeInst.getattrField, hx, hl, hy] at h
      | some w =>
          simp [NodeInst.getattrField, hx, hl, hy] at h
          obtain ⟨hv, hn⟩ := h
          subst hn
          exact ⟨rfl, rfl, rfl⟩
    · simp [NodeInst.getattrField, hx, hl] at h
      obtain ⟨hv, hn⟩ := h
      subst hn
      exact ⟨rfl, rfl, rfl⟩

theorem eagerLoad_stateDict (store : Store) :
    ∀ (fields : List String) (n n' : NodeInst) (tr : List String),
      eagerLoad store n fields = .ok (n', tr) →
      n'.stateDict = n.stateDict ∧ n'.cls = n.cls := by
  intro fields
  induction fields with
  | nil =>
      intro n n' tr h
      simp [eagerLoad] at h
      obtain ⟨h₁, h₂⟩ := h
      subst h₁
      exact ⟨rfl, rfl⟩
  | cons f fs ih =>
      intro n n' tr h
      cases hg : n.getattrField store f with
      | error e => simp [eagerLoad, hg] at h
      | ok p =>
          obtain ⟨v, n₂⟩ := p
          cases he : eagerLoad store n₂ fs with
          | error e => simp [eagerLoad, hg, he] at h
          | ok q =>
              obtain ⟨n₃, tr'⟩ := q
              simp [eagerLoad, hg, he] at h
              obtain ⟨h₁, h₂⟩ := h
              subst h₁
              obtain ⟨hs₂, hc₂, _⟩ := getattrField_stateDict store n f v n₂ hg
              obtain ⟨hs₃, hc₃⟩ := ih n₂ n₃ tr' he
              exact ⟨hs₃.trans hs₂, hc₃.trans hc₂⟩

/-- Eager loading succeeds and visits every field in order when each field
is present in the dictionary and, when deferred, present in the store. -/
theorem eagerLoad_ok (store : Store) (nm : String) :
    ∀ (fields : List String) (n : NodeInst),
      alookup n.dict "name" = some (.pyStr nm) →
      (∀ f ∈ fields, ∃ v, alookup n.dict f = some v ∧
        (v = PyValue.lazySentinel → (alookup store.values (nm, f)).isSome)) →
      ∃ n', eagerLoad store n fields = .ok (n', fields) ∧
        alookup n'.dict "name" = some (.pyStr nm) ∧ n'.stateDict = n.stateDict := by
  intro fields
  induction fields with
  | nil =>
      intro n hname _
      exact ⟨n, rfl, hname, rfl⟩
  | cons f fs ih =>
      intro n hname hall
      obtain ⟨v, hv, hlazy⟩ := hall f (List.mem_cons_self f fs)
      have hnattr : n.nameAttr = some nm := by
        simp [NodeInst.nameAttr, hname]
      by_cases hvl : v = PyValue.lazySentinel
      · subst hvl
        have hfne : f ≠ "name" := by
          intro he
          subst he
          rw [hname] at hv
          cases hv
        obtain ⟨w, hw⟩ := Option.isSome_iff_exists.mp (hlazy rfl)
        have hget : n.getattrField store f =
            .ok (w, { n with dict := aupdate n.dict f w }) := by
          simp [NodeInst.getattrField, hv, hnattr, hw]
        have hname₂ :
            alookup (aupdate n.dict f w) "name" = some (.pyStr nm) := by
          rw [alookup_aupdate_ne _ _ _ _ hfne]
          exact hname
        have hall₂ : ∀ g ∈ fs, ∃ v',
            alookup (aupdate n.dict f w) g = some v' ∧
            (v' = PyValue.lazySentinel → (alookup store.values (nm, g)).isSome) := by
          intro g hg
          by_cases hgf : g = f
          · subst hgf
            exact ⟨w, alookup_aupdate_self _ _ _, fun _ => by simp [hw]⟩
          · obtain ⟨v', hv', hl'⟩ := hall g (List.mem_cons_of_mem f hg)
            exact ⟨v', by
              rw [alookup_aupdate_ne _ _ _ _ (fun h => hgf h.symm)]
              exact hv', hl'⟩
        obtain ⟨n', he, hn', hsd⟩ := ih { n with dict := aupdate n.dict f w } hname₂ hall₂
        exact ⟨n', by simp [eagerLoad, hget, he], hn', hsd⟩
      · have hget : n.getattrField store f = .ok (v, n) := by
          simp [NodeInst.getattrField, hv, hvl]
        obtain ⟨n', he, hn', hsd⟩ := ih n hname
          (fun g hg => hall g (List.mem_cons_of_mem f hg))
        exact ⟨n', by simp [eagerLoad, hget, he], hn', hsd⟩

/-- Closed form of `from_rev` with `lazy_evaluation = False`: the same
initial instance as the lazy case, handed to the eager `getattr` loop over
all declared fields. -/
theorem from_rev_eager_eq (cls : NodeClass) (store : Store) (u : String)
    (name remote rev : Option String) (running : Bool) :
    cls.from_rev store u name remote rev running false =
      eagerLoad store
        { cls := cls, uuid := u,
          dict := ("name", .pyStr (name.getD cls.clsName)) ::
            (cls.userFields.map Prod.fst).map (fun f => (f, PyValue.lazySentinel)),
          stateDict := some
            { name := some (name.getD cls.clsName), remote := remote, rev := rev,
              run_count := (alookup store.nodeMeta (name.getD cls.clsName)).getD 0,
              state := if running then .RUNNING else .FINISHED,
              lazy_evaluation := false, tmp_path := none, group := none } }
        cls.fieldNames := by
  simp [NodeClass.from_rev, NodeClass.fieldNames, aupdate]

/-- C1 counterexample: the claim says `from_rev` with
`lazy_evaluation=True` sets every declared field to the lazy sentinel, but
`lazy_values["name"] = name` (src/zntrack/node.py line 78) sets the
declared field `name` to the node name instead: for the class
`ParamsToOuts` the constructed dictionary binds `name` to the string
`"ParamsToOuts"`, not to the sentinel. -/
theorem c1_name_not_lazy_counterexample :
    NodeClass.from_rev
        ⟨"ParamsToOuts", [("params", some .PARAMS), ("outs", some .OUTS)]⟩
        ⟨[], []⟩ "u" none (some ".") none false true
      = .ok (⟨⟨"ParamsToOuts", [("params", some .PARAMS), ("outs", some .OUTS)]⟩, "u",
          [("name", .pyStr "ParamsToOuts"), ("params", .lazySentinel),
            ("outs", .lazySentinel)],
          some ⟨some "ParamsToOuts", some ".", none, 0, .FINISHED, true, none, none⟩⟩, [])
    ∧ "name" ∈ NodeClass.fieldNames
        ⟨"ParamsToOuts", [("params", some .PARAMS), ("outs", some .OUTS)]⟩
    ∧ (PyValue.pyStr "ParamsToOuts" ≠ PyValue.lazySentinel) := by
  refine ⟨?_, by decide, by decide⟩
  rw [from_rev_lazy_eq]
  rfl

/-- C1 (amended): `from_rev` with `lazy_evaluation=True` (the default)
sets every declared field except `name` to the deferred sentinel — `name`
is set to the requested (or class-derived) name — and performs no field
load at construction (the read trace is empty); with
`lazy_evaluation=False` every declared field is read (getattr) eagerly
during construction, in declaration order. -/
theorem c1_from_rev_lazy_sentinels_and_eager_reads (cls : NodeClass)
    (store : Store) (u : String) (name remote rev : Option String) (running : Bool) :
    (∃ inst, cls.from_rev store u name remote rev running true = .ok (inst, []) ∧
      alookup inst.dict "name" = some (.pyStr (name.getD cls.clsName)) ∧
      ∀ f ∈ cls.fieldNames, f ≠ "name" →
        alookup inst.dict f = some PyValue.lazySentinel) ∧
    ((∀ f ∈ cls.fieldNames, f ≠ "name" →
        (alookup store.values (name.getD cls.clsName, f)).isSome) →
      ∃ inst, cls.from_rev store u name remote rev running false =
        .ok (inst, cls.fieldNames)) := by
  constructor
  · refine ⟨_, from_rev_lazy_eq cls store u name remote rev running, ?_, ?_⟩
    · simp [alookup]
    · intro f hf hfne
      have hf' : f ∈ cls.userFields.map Prod.fst := by
        rcases List.mem_cons.mp hf with he | ht
        · exact absurd he hfne
        · exact ht
      show alookup (("name", PyValue.pyStr (name.getD cls.clsName)) ::
        (cls.userFields.map Prod.fst).map (fun f => (f, PyValue.lazySentinel))) f
          = some PyValue.lazySentinel
      simp only [alookup]
      rw [if_neg (fun h => hfne h.symm)]
      exact alookup_const_map _ _ _ hf'
  · intro hstore
    rw [from_rev_eager_eq]
    obtain ⟨n', he, _, _⟩ := eagerLoad_ok store (name.getD cls.clsName) cls.fieldNames
      { cls := cls, uuid := u,
        dict := ("name", .pyStr (name.getD cls.clsName)) ::
          (cls.userFields.map Prod.fst).map (fun f => (f, PyValue.lazySentinel)),
        stateDict := some
          { name := some (name.getD cls.clsName), remote := remote, rev := rev,
            run_count := (alookup store.nodeMeta (name.getD cls.clsName)).getD 0,
            state := if running then .RUNNING else .FINISHED,
            lazy_evaluation := false, tmp_path := none, group := none } }
      (by simp [alookup])
      (by
        intro f hf
        by_cases hfn : f = "name"
        · subst hfn
          exact ⟨.pyStr (name.getD cls.clsName), by simp [alookup], by simp⟩
        · refine ⟨PyValue.lazySentinel, ?_, fun _ => hstore f hf hfn⟩
          have hf' : f ∈ cls.userFields.map Prod.fst := by
            rcases List.mem_cons.mp hf with he | ht
            · exact absurd he hfn
            · exact ht
          simp only [alookup]
          rw [if_neg (fun h => hfn h.symm)]
          exact alookup_const_map _ _ _ hf')
    exact ⟨n', he⟩

/-- C1 witness: the amended theorem applied to the `ParamsToOuts`-shaped
class with both user fields persisted in the store. -/
theorem c1_witness :
    (∀ f ∈ NodeClass.fieldNames
        ⟨"ParamsToOuts", [("params", some .PARAMS), ("outs", some .OUTS)]⟩,
      f ≠ "name" →
        (alookup (⟨[], [(("ParamsToOuts", "params"), .pyInt 42),
          (("ParamsToOuts", "outs"), .pyInt 42)]⟩ : Store).values
            ("ParamsToOuts", f)).isSome) ∧
    (∃ inst, NodeClass.from_rev
        ⟨"ParamsToOuts", [("params", some .PARAMS), ("outs", some .OUTS)]⟩
        ⟨[], [(("ParamsToOuts", "params"), .pyInt 42),
          (("ParamsToOuts", "outs"), .pyInt 42)]⟩ "u" none (some ".") none false false
      = .ok (inst, NodeClass.fieldNames
          ⟨"ParamsToOuts", [("params", some .PARAMS), ("outs", some .OUTS)]⟩)) :=
  ⟨by decide,
    (c1_from_rev_lazy_sentinels_and_eager_reads
      ⟨"ParamsToOuts", [("params", some .PARAMS), ("outs", some .OUTS)]⟩
      ⟨[], [(("ParamsToOuts", "params"), .pyInt 42),
        (("ParamsToOuts", "outs"), .pyInt 42)]⟩ "u" none (some ".") none false).2
      (by decide)⟩

theorem storeFold_notmem (nm : String) :
    ∀ (dict : List (String × PyValue)) (vs0 : List ((String × String) × PyValue))
      (p : String × String),
      (∀ fv ∈ dict, (nm, fv.1) ≠ p) →
      alookup (dict.foldl (fun vs fv => aupdate vs (nm, fv.1) fv.2) vs0) p =
        alookup vs0 p := by
  intro dict
  induction dict with
  | nil => intro vs0 p _; rfl
  | cons fv t ih =>
      intro vs0 p h
      have h1 := h fv (List.mem_cons_self fv t)
      rw [List.foldl_cons]
      rw [ih (aupdate vs0 (nm, fv.1) fv.2) p
        (fun g hg => h g (List.mem_cons_of_mem fv hg))]
      exact alookup_aupdate_ne _ _ _ _ h1

theorem storeFold_lookup (nm : String) :
    ∀ (dict : List (String × PyValue)) (vs0 : List ((String × String) × PyValue))
      (f : String) (v : PyValue),
      (dict.map Prod.fst).Nodup →
      alookup dict f = some v →
      alookup (dict.foldl (fun vs fv => aupdate vs (nm, fv.1) fv.2) vs0) (nm, f) =
        some v := by
  intro dict
  induction dict with
  | nil => intro vs0 f v _ hv; cases hv
  | cons fv t ih =>
      intro vs0 f v hnd hv
      obtain ⟨k, w⟩ := fv
      rw [List.map_cons, List.nodup_cons] at hnd
      obtain ⟨hk, hnd'⟩ := hnd
      rw [List.foldl_cons]
      by_cases hkf : k = f
      · subst hkf
        have hv' : w = v := by
          simpa [alookup] using hv
        subst hv'
        rw [storeFold_notmem nm t (aupdate vs0 (nm, k) w) (nm, k)
          (fun g hg he => hk (by
            have h2 : g.1 = k := congrArg Prod.snd he
            have h3 : g.1 ∈ t.map Prod.fst := List.mem_map_of_mem Prod.fst hg
            rwa [h2] at h3))]
        exact alookup_aupdate_self _ _ _
      · have hv' : alookup t f = some v := by
          simpa [alookup, hkf] using hv
        exact ih (aupdate vs0 (nm, k) w) f v hnd' hv'

/-- When every declared field holds a present (non-sentinel) value, one
plugin pass of `save` succeeds, leaves the instance unchanged, and writes
every field in order. -/
theorem savePass_ok (store : Store) :
    ∀ (fields : List String) (n : NodeInst),
      (∀ f ∈ fields, ∃ v, alookup n.dict f = some v ∧ v.isSentinel = false) →
      savePass store n fields = .ok (n, fields) := by
  intro fields
  induction fields with
  | nil => intro n _; rfl
  | cons f fs ih =>
      intro n h
      obtain ⟨v, hv, hs⟩ := h f (List.mem_cons_self f fs)
      have hvl : v ≠ PyValue.lazySentinel := by
        intro he; subst he; cases hs
      have hget : n.getattrField store f = .ok (v, n) := by
        simp [NodeInst.getattrField, hv, hvl]
      have hrest := ih n (fun g hg => h g (List.mem_cons_of_mem f hg))
      simp [savePass, hget, hs, hrest]

/-- When every declared field holds a present value, the full plugin loop
of `save` succeeds with the plugin-by-plugin write trace. -/
theorem saveLoop_ok (store : Store) (n : NodeInst)
    (h : ∀ f ∈ n.cls.fieldNames, ∃ v, alookup n.dict f = some v ∧ v.isSentinel = false) :
    ∀ (plugins : List String),
      saveLoop store n plugins = .ok (n, pluginWrites plugins n.cls.fieldNames) := by
  intro plugins
  induction plugins with
  | nil => rfl
  | cons p ps ih =>
      simp [saveLoop, savePass_ok store n.cls.fieldNames n h, ih, pluginWrites]

/-- When every declared field holds a present value, `save` writes every
field through every plugin and sets the state to FINISHED. -/
theorem save_ok (store : Store) (plugins : List String) (n : NodeInst)
    (h : ∀ f ∈ n.cls.fieldNames, ∃ v, alookup n.dict f = some v ∧ v.isSentinel = false) :
    n.save store plugins =
      .ok ({ n with stateDict := some { n.state with state := .FINISHED } },
        pluginWrites plugins n.cls.fieldNames) := by
  simp [NodeInst.save, saveLoop_ok store n h plugins]

/-- C2 counterexample: the claim says a node materialized via `from_rev`
starts in lifecycle state UNKNOWN and becomes loaded only after a field is
read.  In src/zntrack/node.py line 94 `from_rev` installs state FINISHED
(RUNNING when `running=True`), never UNKNOWN; and the legacy
`Node.from_rev` (src/zntrack/core/node.py line 141) calls `load()` during
construction, so the returned instance already has `loaded=True` with no
field read. -/
theorem c2_from_rev_counterexample :
    (NodeClass.from_rev
        ⟨"ParamsToOuts", [("params", some .PARAMS), ("outs", some .OUTS)]⟩
        ⟨[], []⟩ "u" none (some ".") none false true).toOption.map
      (fun p => p.1.state.state) = some .FINISHED ∧
    NodeStatusEnum.FINISHED ≠ NodeStatusEnum.UNKNOWN ∧
    (legacyFromRev "WriteIO" (fun d => d) none "workspace" "HEAD").state.loaded = true := by
  refine ⟨?_, by decide, by decide⟩
  rw [from_rev_lazy_eq]
  rfl

/-- C2 (amended): a node materialized via the current `from_rev`
(src/zntrack/node.py) has lifecycle state FINISHED when `running=False`
and RUNNING when `running=True` — never UNKNOWN, and it carries no
`loaded` flag; in the legacy implementation (src/zntrack/core/node.py),
`from_rev` initializes the status to UNKNOWN with `loaded=False` but
invokes `load()` before returning, so the returned instance already has
`loaded=True` (with `results` still UNKNOWN) without any field having been
read by the caller. -/
theorem c2_from_rev_initial_state (cls : NodeClass) (store : Store) (u : String)
    (name remote rev : Option String) (running : Bool) (clsName : String)
    (loadFields : List (String × PyValue) → List (String × PyValue))
    (lname : Option String) (origin lrev : String) :
    (∃ inst, cls.from_rev store u name remote rev running true = .ok (inst, []) ∧
      inst.state.state =
        (if running then NodeStatusEnum.RUNNING else NodeStatusEnum.FINISHED)) ∧
    (legacyFromRev clsName loadFields lname origin lrev).state.results = .UNKNOWN ∧
    (legacyFromRev clsName loadFields lname origin lrev).state.loaded = true := by
  refine ⟨⟨_, from_rev_lazy_eq cls store u name remote rev running, rfl⟩, ?_, ?_⟩
  · simp [legacyFromRev, legacyLoad, LegacyNodeInst.state]
  · simp [legacyFromRev, legacyLoad, LegacyNodeInst.state]

/-- C3: round-trip law.  For a node whose declared fields all hold
serializable (non-sentinel) values, `save` succeeds, and a fresh instance
of the same class and name constructed via `from_rev` against the store
the save produced yields, for every declared field, a read result equal to
the value that was saved. -/
theorem c3_save_from_rev_round_trip (cls : NodeClass) (store0 : Store)
    (u' : String) (plugins : List String) (n : NodeInst) (nm : String)
    (hcls : n.cls = cls)
    (hname : alookup n.dict "name" = some (.pyStr nm))
    (hnd : (n.dict.map Prod.fst).Nodup)
    (hfields : ∀ f ∈ cls.fieldNames, ∃ v, alookup n.dict f = some v ∧
      v.isSentinel = false) :
    (∃ n₁ ws, n.save store0 plugins = .ok (n₁, ws)) ∧
    (∃ m, cls.from_rev (storeFromSave nm n.dict store0) u' (some nm) (some ".")
        none false true = .ok (m, []) ∧
      ∀ f ∈ cls.fieldNames, ∃ v, alookup n.dict f = some v ∧
        (m.getattrField (storeFromSave nm n.dict store0) f).toOption.map Prod.fst
          = some v) := by
  constructor
  · exact ⟨_, _, save_ok store0 plugins n (hcls ▸ hfields)⟩
  · refine ⟨_, from_rev_lazy_eq cls (storeFromSave nm n.dict store0) u' (some nm)
      (some ".") none false, ?_⟩
    intro f hf
    obtain ⟨v, hv, hs⟩ := hfields f hf
    have hmdict : alookup
        (("name", PyValue.pyStr nm) ::
          (cls.userFields.map Prod.fst).map (fun g => (g, PyValue.lazySentinel)))
        "name" = some (.pyStr nm) := by
      simp [alookup]
    by_cases hfn : f = "name"
    · subst hfn
      have hveq : v = .pyStr nm := by
        rw [hname] at hv
        exact (Option.some.inj hv).symm
      subst hveq
      refine ⟨.pyStr nm, hv, ?_⟩
      simp only [NodeInst.getattrField, List.map_map, Option.getD_some]
      rw [show alookup (("name", PyValue.pyStr nm) ::
          List.map ((fun g => (g, PyValue.lazySentinel)) ∘ Prod.fst) cls.userFields)
          "name" = some (.pyStr nm) by simp [alookup]]
      simp
      exact ⟨_, rfl⟩
    · have hf' : f ∈ cls.userFields.map Prod.fst := by
        rcases List.mem_cons.mp hf with he | ht
        · exact absurd he hfn
        · exact ht
      have hlazy : alookup
          (("name", PyValue.pyStr nm) ::
            (cls.userFields.map Prod.fst).map (fun g => (g, PyValue.lazySentinel)))
          f = some PyValue.lazySentinel := by
        simp only [alookup]
        rw [if_neg (fun h => hfn h.symm)]
        exact alookup_const_map _ _ _ hf'
      have hstorev : alookup (storeFromSave nm n.dict store0).values (nm, f)
          = some v := by
        exact storeFold_lookup nm n.dict store0.values f v hnd hv
      refine ⟨v, hv, ?_⟩
      simp only [List.map_map] at hlazy hmdict
      simp [NodeInst.getattrField, hlazy, NodeInst.nameAttr, hmdict, hstorev]
      exact ⟨_, rfl⟩

/-- C3 witness: the round-trip theorem applied to a concrete
`ParamsToOuts` instance holding `params = 42`, `outs = 42`. -/
theorem c3_witness :
    ((alookup [("name", PyValue.pyStr "ParamsToOuts"), ("params", PyValue.pyInt 42),
        ("outs", PyValue.pyInt 42)] "name" = some (.pyStr "ParamsToOuts")) ∧
      (([("name", PyValue.pyStr "ParamsToOuts"), ("params", PyValue.pyInt 42),
        ("outs", PyValue.pyInt 42)].map Prod.fst).Nodup)) ∧
    ((∃ n₁ ws, NodeInst.save ⟨[], []⟩ ["DVCPlugin"]
        ⟨⟨"ParamsToOuts", [("params", some .PARAMS), ("outs", some .OUTS)]⟩, "u",
          [("name", .pyStr "ParamsToOuts"), ("params", .pyInt 42),
            ("outs", .pyInt 42)], none⟩ = .ok (n₁, ws)) ∧
      (∃ m, NodeClass.from_rev
          ⟨"ParamsToOuts", [("params", some .PARAMS), ("outs", some .OUTS)]⟩
          (storeFromSave "ParamsToOuts"
            [("name", .pyStr "ParamsToOuts"), ("params", .pyInt 42),
              ("outs", .pyInt 42)] ⟨[], []⟩) "v" (some "ParamsToOuts") (some ".")
          none false true = .ok (m, []) ∧
        ∀ f ∈ NodeClass.fieldNames
            ⟨"ParamsToOuts", [("params", some .PARAMS), ("outs", some .OUTS)]⟩,
          ∃ v, alookup [("name", PyValue.pyStr "ParamsToOuts"),
              ("params", PyValue.pyInt 42), ("outs", PyValue.pyInt 42)] f = some v ∧
            (m.getattrField (storeFromSave "ParamsToOuts"
              [("name", .pyStr "ParamsToOuts"), ("params", .pyInt 42),
                ("outs", .pyInt 42)] ⟨[], []⟩) f).toOption.map Prod.fst = some v)) :=
  ⟨⟨by decide, by decide⟩,
    c3_save_from_rev_round_trip
      ⟨"ParamsToOuts", [("params", some .PARAMS), ("outs", some .OUTS)]⟩
      ⟨[], []⟩ "v" ["DVCPlugin"]
      ⟨⟨"ParamsToOuts", [("params", some .PARAMS), ("outs", some .OUTS)]⟩, "u",
        [("name", .pyStr "ParamsToOuts"), ("params", .pyInt 42),
          ("outs", .pyInt 42)], none⟩ "ParamsToOuts"
      rfl (by decide) (by decide) (by decide)⟩

theorem makeSuffixName_one (b : String) : makeSuffixName b 1 = b ++ "_1" := by
  rw [show makeSuffixName b 1 = b ++ "_" ++ "1" from rfl, String.append_assoc]
  rfl

theorem makeSuffixName_two (b : String) : makeSuffixName b 2 = b ++ "_2" := by
  rw [show makeSuffixName b 2 = b ++ "_" ++ "2" from rfl, String.append_assoc]
  rfl

theorem append_tag_ne_self (b t : String) (ht : t.data ≠ []) : b ++ t ≠ b := by
  intro h
  have h2 := congrArg (fun s => s.data.length) h
  simp only [String.data_append, List.length_append] at h2
  have : t.data.length = 0 := by omega
  exact ht (List.length_eq_zero.mp this)

theorem append_tag_inj (b t t' : String) (h : b ++ t = b ++ t') : t = t' := by
  have h2 := congrArg String.data h
  simp only [String.data_append] at h2
  exact String.ext (List.append_cancel_left h2)

/-- C4: automatic naming.  Instantiating three same-class nodes without
explicit names, in order, yields `ClassName`, `ClassName_1`, `ClassName_2`
for any class name. -/
theorem c4_automatic_node_names (base : String) :
    assignAutoNames [base, base, base] = [base, base ++ "_1", base ++ "_2"] := by
  have n1 : base ++ "_1" ≠ base := append_tag_ne_self base "_1" (by decide)
  have n2 : base ++ "_2" ≠ base := append_tag_ne_self base "_2" (by decide)
  have n21 : base ++ "_2" ≠ base ++ "_1" := by
    intro h
    have := append_tag_inj base "_2" "_1" h
    exact absurd this (by decide)
  have e1 : base ++ "_" ++ toString (1 : Nat) = base ++ "_1" := by
    rw [String.append_assoc]
    rfl
  have e2 : base ++ "_" ++ toString (2 : Nat) = base ++ "_2" := by
    rw [String.append_assoc]
    rfl
  have h1 : resolveAutoName [] base = base := rfl
  have h2 : resolveAutoName [base] base = base ++ "_1" := by
    rw [resolveAutoName]
    rw [show List.range ([base].length + 1) = [0, 1] from rfl]
    simp [List.find?, makeSuffixName, e1, n1]
  have h3 : resolveAutoName [base, base ++ "_1"] base = base ++ "_2" := by
    rw [resolveAutoName]
    rw [show List.range ([base, base ++ "_1"].length + 1) = [0, 1, 2] from rfl]
    simp [List.find?, makeSuffixName, e1, e2, n1, n2, n21]
  simp [assignAutoNames, h1, h2, h3]

theorem stripGroupPfx_append (g x : String) :
    stripGroupPfx g (g ++ "_" ++ x) = x := by
  have hdata : (g ++ "_" ++ x).data = (g.data ++ ['_']) ++ x.data := by
    rw [String.data_append, String.data_append]
  rw [stripGroupPfx, hdata]
  rw [if_pos (List.isPrefixOf_iff_prefix.mpr (List.prefix_append _ _))]
  rw [show g.data.length + 1 = (g.data ++ ['_']).length by simp]
  rw [List.drop_left]
  exact String.asString_toList x

/-- C5 counterexample: the claim says that for a node named `X` declared
inside group `G` (persisted name `G_X`), the computed working directory
`nodes/G/X` applies whenever the override is absent.  But `from_rev`
(src/zntrack/node.py lines 89-97) installs a state with `group = None`, so
a loaded `Group1_WriteIO` without an override gets `nodes/Group1_WriteIO`,
not `nodes/Group1/WriteIO` — exactly the behavior asserted by
`test_groups_nwd` (src/tests/integration/test_project.py line 328). -/
theorem c5_loaded_group_nwd_counterexample :
    (NodeClass.from_rev ⟨"WriteIO", [("inputs", some .PARAMS), ("outputs", some .OUTS)]⟩
        ⟨[], []⟩ "u" (some "Group1_WriteIO") (some ".") none false true).toOption.map
      (fun p => p.1.nwd none) = some ["nodes", "Group1_WriteIO"] ∧
    getNwd none (some ["Group1"]) "Group1_WriteIO" = ["nodes", "Group1", "WriteIO"] ∧
    (["nodes", "Group1_WriteIO"] : List String) ≠ ["nodes", "Group1", "WriteIO"] := by
  refine ⟨?_, by decide, by decide⟩
  rw [from_rev_lazy_eq]
  rfl

/-- C5 (amended): a node named `x` declared inside a group `g` has
persisted name `g_x`, and while the group information is carried on the
instance the computed working directory is `nodes/g/x`; an explicit
override stored in the metadata always takes precedence; when the override
is absent the computed rule applies to the group information the instance
carries — a node loaded via `from_rev` carries `group = None`, so its
fallback is `nodes/<persisted name>`. -/
theorem c5_group_name_and_nwd (g x : String) (ov : List String)
    (cls : NodeClass) (store : Store) (u : String) (remote rev : Option String)
    (running : Bool) (group : Option (List String)) (nm : String) :
    groupNodeName g x = g ++ "_" ++ x ∧
    getNwd none (some [g]) (groupNodeName g x) = ["nodes", g, x] ∧
    getNwd (some ov) group nm = ov ∧
    (∃ inst, cls.from_rev store u (some nm) remote rev running true = .ok (inst, []) ∧
      inst.state.group = none ∧
      inst.nwd none = ["nodes", nm] ∧
      inst.nwd (some ov) = ov) := by
  refine ⟨rfl, ?_, rfl, ?_⟩
  · simp [getNwd, groupNodeName, stripGroupPfx_append]
  · refine ⟨_, from_rev_lazy_eq cls store u (some nm) remote rev running, rfl, ?_, rfl⟩
    simp [NodeInst.nwd, NodeInst.state, NodeInst.nameAttr, alookup, getNwd]

/-- One plugin pass of `save` raises an error naming the first field whose
read yields a sentinel (a `ValueError` for the not-available sentinel, the
node-not-available error for an unresolvable deferred value). -/
theorem savePass_err (store : Store) :
    ∀ (pre : List String) (n : NodeInst) (f : String) (post : List String),
      (∀ g ∈ pre, ∃ v, alookup n.dict g = some v ∧ v.isSentinel = false) →
      (alookup n.dict f = some .notAvailable ∨
        (alookup n.dict f = some .lazySentinel ∧
          alookup store.values (n.nameAttr.getD "", f) = none)) →
      ∃ e, savePass store n (pre ++ f :: post) = .error e ∧ e.field = f := by
  intro pre
  induction pre with
  | nil =>
      intro n f post _ hf
      rcases hf with hna | ⟨hlz, hmiss⟩
      · have hget : n.getattrField store f = .ok (.notAvailable, n) := by
          simp [NodeInst.getattrField, hna]
        exact ⟨.valueError f, by simp [savePass, hget, PyValue.isSentinel], rfl⟩
      · have hget : n.getattrField store f = .error (.nodeNotAvailable f) := by
          simp [NodeInst.getattrField, hlz, hmiss]
        exact ⟨.readError (.nodeNotAvailable f), by simp [savePass, hget], rfl⟩
  | cons g pre' ih =>
      intro n f post hpre hf
      obtain ⟨v, hv, hs⟩ := hpre g (List.mem_cons_self g pre')
      have hvl : v ≠ PyValue.lazySentinel := by
        intro he; subst he; cases hs
      have hget : n.getattrField store g = .ok (v, n) := by
        simp [NodeInst.getattrField, hv, hvl]
      obtain ⟨e, he, hef⟩ := ih n f post
        (fun g' hg' => hpre g' (List.mem_cons_of_mem g hg')) hf
      exact ⟨e, by simp [savePass, hget, hs, he], hef⟩

/-- `save` propagates the first plugin pass's error and performs no state
transition on failure. -/
theorem save_err (store : Store) (plugins : List String) (n : NodeInst)
    (hp : plugins ≠ []) (pre : List String) (f : String) (post : List String)
    (hsplit : n.cls.fieldNames = pre ++ f :: post)
    (hpre : ∀ g ∈ pre, ∃ v, alookup n.dict g = some v ∧ v.isSentinel = false)
    (hf : alookup n.dict f = some .notAvailable ∨
      (alookup n.dict f = some .lazySentinel ∧
        alookup store.values (n.nameAttr.getD "", f) = none)) :
    ∃ e, n.save store plugins = .error e ∧ e.field = f := by
  obtain ⟨e, he, hef⟩ := savePass_err store pre n f post hpre hf
  cases plugins with
  | nil => exact absurd rfl hp
  | cons p ps =>
      refine ⟨e, ?_, hef⟩
      have hpass : savePass store n n.cls.fieldNames = .error e := by
        rw [hsplit]; exact he
      simp [NodeInst.save, saveLoop, hpass]

/-- C6: saving a node in which every field read yields a real value writes
each field through every configured plugin and then sets the lifecycle
state to FINISHED; if the first offending field read yields the lazy or
not-available sentinel, `save` raises an error naming that field, and no
FINISHED state is produced (the error return carries no updated
instance — the assignment on src/zntrack/node.py line 53 sits after the
plugin loop). -/
theorem c6_save_finishes_or_errors (store : Store) (plugins : List String)
    (n : NodeInst) :
    ((∀ f ∈ n.cls.fieldNames, ∃ v, alookup n.dict f = some v ∧ v.isSentinel = false) →
      n.save store plugins =
        .ok ({ n with stateDict := some { n.state with state := .FINISHED } },
          pluginWrites plugins n.cls.fieldNames)) ∧
    (∀ pre f post, plugins ≠ [] → n.cls.fieldNames = pre ++ f :: post →
      (∀ g ∈ pre, ∃ v, alookup n.dict g = some v ∧ v.isSentinel = false) →
      (alookup n.dict f = some .notAvailable ∨
        (alookup n.dict f = some .lazySentinel ∧
          alookup store.values (n.nameAttr.getD "", f) = none)) →
      ∃ e, n.save store plugins = .error e ∧ e.field = f) :=
  ⟨fun h => save_ok store plugins n h,
    fun pre f post hp hsplit hpre hf => save_err store plugins n hp pre f post hsplit hpre hf⟩

/-- C6 witness: the success part on a node holding real values for both
fields, and the error part on a node whose `outs` field still holds the
not-available sentinel. -/
theorem c6_witness :
    (NodeInst.save ⟨[], []⟩ ["DVCPlugin"]
        ⟨⟨"ParamsToOuts", [("params", some .PARAMS), ("outs", some .OUTS)]⟩, "u",
          [("name", .pyStr "ParamsToOuts"), ("params", .pyInt 42),
            ("outs", .pyInt 42)], none⟩ =
      .ok (⟨⟨"ParamsToOuts", [("params", some .PARAMS), ("outs", some .OUTS)]⟩, "u",
          [("name", .pyStr "ParamsToOuts"), ("params", .pyInt 42),
            ("outs", .pyInt 42)],
          some ⟨some "ParamsToOuts", some ".", none, 0, .FINISHED, true, none, none⟩⟩,
        [("DVCPlugin", "name"), ("DVCPlugin", "params"), ("DVCPlugin", "outs")])) ∧
    (∃ e, NodeInst.save ⟨[], []⟩ ["DVCPlugin"]
        ⟨⟨"ParamsToOuts", [("params", some .PARAMS), ("outs", some .OUTS)]⟩, "u",
          [("name", .pyStr "ParamsToOuts"), ("params", .pyInt 42),
            ("outs", .notAvailable)], none⟩ = .error e ∧ e.field = "outs") := by
  constructor
  · have h := (c6_save_finishes_or_errors ⟨[], []⟩ ["DVCPlugin"]
      ⟨⟨"ParamsToOuts", [("params", some .PARAMS), ("outs", some .OUTS)]⟩, "u",
        [("name", .pyStr "ParamsToOuts"), ("params", .pyInt 42),
          ("outs", .pyInt 42)], none⟩).1 (by decide)
    rw [h]
    rfl
  · exact (c6_save_finishes_or_errors ⟨[], []⟩ ["DVCPlugin"]
      ⟨⟨"ParamsToOuts", [("params", some .PARAMS), ("outs", some .OUTS)]⟩, "u",
        [("name", .pyStr "ParamsToOuts"), ("params", .pyInt 42),
          ("outs", .notAvailable)], none⟩).2
      ["name", "params"] "outs" [] (by decide) (by decide) (by decide) (by decide)

/-- C7: `extend_plots` on a declared field whose role is not plots raises
the invalid-option error naming the attribute and its actual role; on an
undeclared attribute it raises the invalid-option error naming the
attribute; only on a plots-role field does it append the given row to the
field's accumulated DataFrame. -/
theorem c7_extend_plots_role_checks (store : Store) (plugins : List String)
    (n : NodeInst) (attr : String) (data : List (String × Int)) :
    (∀ opt, alookup n.cls.fieldOptions attr = some opt → opt ≠ some .PLOTS →
      extendPlots store plugins n attr data = .error (wrongTypeMessage attr opt)) ∧
    (alookup n.cls.fieldOptions attr = none →
      extendPlots store plugins n attr data =
        .error (unknownAttributeMessage attr n.cls.clsName)) ∧
    (alookup n.cls.fieldOptions attr = some (some .PLOTS) →
      ∀ rows n₁, n.getattrField store attr = .ok (.pyDF rows, n₁) →
        extendPlots store plugins n attr data =
          .ok ({ n₁ with dict := aupdate n₁.dict attr (.pyDF (rows ++ [data])) },
            plugins)) := by
  refine ⟨?_, ?_, ?_⟩
  · intro opt hopt hne
    simp [extendPlots, hopt, hne]
  · intro hnone
    simp [extendPlots, hnone]
  · intro hopt rows n₁ hget
    simp [extendPlots, hopt, hget]

/-- C7 witness: the three branches at concrete inputs — `params` (role
PARAMS, rejected with its role named), `missing` (undeclared, rejected by
name), and `plots` (role PLOTS, row appended). -/
theorem c7_witness :
    (extendPlots ⟨[], []⟩ ["DVCPlugin"]
        ⟨⟨"RangePlotter", [("plots", some .PLOTS), ("params", some .PARAMS)]⟩, "u",
          [("name", .pyStr "RangePlotter"), ("plots", .pyDF [[("idx", 1)]]),
            ("params", .pyInt 3)], none⟩ "params" [("idx", 2)] =
      .error (wrongTypeMessage "params" (some .PARAMS))) ∧
    (extendPlots ⟨[], []⟩ ["DVCPlugin"]
        ⟨⟨"RangePlotter", [("plots", some .PLOTS), ("params", some .PARAMS)]⟩, "u",
          [("name", .pyStr "RangePlotter"), ("plots", .pyDF [[("idx", 1)]]),
            ("params", .pyInt 3)], none⟩ "missing" [("idx", 2)] =
      .error (unknownAttributeMessage "missing" "RangePlotter")) ∧
    (extendPlots ⟨[], []⟩ ["DVCPlugin"]
        ⟨⟨"RangePlotter", [("plots", some .PLOTS), ("params", some .PARAMS)]⟩, "u",
          [("name", .pyStr "RangePlotter"), ("plots", .pyDF [[("idx", 1)]]),
            ("params", .pyInt 3)], none⟩ "plots" [("idx", 2)] =
      .ok (⟨⟨"RangePlotter", [("plots", some .PLOTS), ("params", some .PARAMS)]⟩, "u",
          [("name", .pyStr "RangePlotter"),
            ("plots", .pyDF [[("idx", 1)], [("idx", 2)]]), ("params", .pyInt 3)],
          none⟩, ["DVCPlugin"])) := by
  refine ⟨?_, ?_, ?_⟩
  · exact (c7_extend_plots_role_checks ⟨[], []⟩ ["DVCPlugin"]
      ⟨⟨"RangePlotter", [("plots", some .PLOTS), ("params", some .PARAMS)]⟩, "u",
        [("name", .pyStr "RangePlotter"), ("plots", .pyDF [[("idx", 1)]]),
          ("params", .pyInt 3)], none⟩ "params" [("idx", 2)]).1
      (some .PARAMS) (by decide) (by decide)
  · exact (c7_extend_plots_role_checks ⟨[], []⟩ ["DVCPlugin"]
      ⟨⟨"RangePlotter", [("plots", some .PLOTS), ("params", some .PARAMS)]⟩, "u",
        [("name", .pyStr "RangePlotter"), ("plots", .pyDF [[("idx", 1)]]),
          ("params", .pyInt 3)], none⟩ "missing" [("idx", 2)]).2.1 (by decide)
  · have h := (c7_extend_plots_role_checks ⟨[], []⟩ ["DVCPlugin"]
      ⟨⟨"RangePlotter", [("plots", some .PLOTS), ("params", some .PARAMS)]⟩, "u",
        [("name", .pyStr "RangePlotter"), ("plots", .pyDF [[("idx", 1)]]),
          ("params", .pyInt 3)], none⟩ "plots" [("idx", 2)]).2.2 (by decide)
      [[("idx", 1)]]
      ⟨⟨"RangePlotter", [("plots", some .PLOTS), ("params", some .PARAMS)]⟩, "u",
        [("name", .pyStr "RangePlotter"), ("plots", .pyDF [[("idx", 1)]]),
          ("params", .pyInt 3)], none⟩ (by rfl)
    rw [h]
    rfl

theorem updateFold_notmem (getData : String → Except LoadErr PyValue) :
    ∀ (opts : List String) (d : List (String × PyValue)) (opt : String),
      opt ∉ opts →
      alookup (opts.foldl
        (fun d o =>
          match getData o with
          | .ok v => aupdate d o v
          | .error _ => d) d) opt = alookup d opt := by
  intro opts
  induction opts with
  | nil => intro d opt _; rfl
  | cons o rest ih =>
      intro d opt h
      have ho : o ≠ opt := fun he => h (he ▸ List.mem_cons_self o rest)
      have h' : opt ∉ rest := fun hm => h (List.mem_cons_of_mem o hm)
      rw [List.foldl_cons]
      cases hg : getData o with
      | ok v =>
          exact (ih (aupdate d o v) opt h').trans (alookup_aupdate_ne _ _ _ _ ho)
      | error e =>
          exact ih d opt h'

theorem updateFold_lookup (getData : String → Except LoadErr PyValue) :
    ∀ (opts : List String) (d : List (String × PyValue)) (opt : String),
      opt ∈ opts → opts.Nodup →
      alookup (opts.foldl
        (fun d o =>
          match getData o with
          | .ok v => aupdate d o v
          | .error _ => d) d) opt =
        (match getData opt with
         | .ok v => some v
         | .error _ => alookup d opt) := by
  intro opts
  induction opts with
  | nil => intro d opt h _; cases h
  | cons o rest ih =>
      intro d opt hmem hnd
      rw [List.nodup_cons] at hnd
      obtain ⟨ho, hnd'⟩ := hnd
      rw [List.foldl_cons]
      by_cases heq : opt = o
      · subst heq
        rw [updateFold_notmem getData rest _ opt ho]
        cases hg : getData opt with
        | ok v => rw [alookup_aupdate_self]
        | error e => rfl
      · have hmem' : opt ∈ rest := by
          rcases List.mem_cons.mp hmem with he | ht
          · exact absurd he heq
          · exact ht
        cases hg : getData o with
        | ok v =>
            rw [ih (aupdate d o v) opt hmem' hnd']
            cases hg' : getData opt with
            | ok w => rfl
            | error e =>
                rw [alookup_aupdate_ne _ _ _ _ (fun he => heq he.symm)]
        | error e => rw [ih d opt hmem' hnd']

/-- C8: loading tolerates partial persistence.  `update_options` sets
`is_loaded`; for any declared option whose data lookup raises
file-not-found or key-not-found, the previous (default) dictionary entry
is preserved instead of failing; for any option whose data lookup
succeeds, the loaded value is stored. -/
theorem c8_update_options_tolerates_missing (getData : String → Except LoadErr PyValue)
    (options : List String) (n : OldNode) (opt : String)
    (hmem : opt ∈ options) (hnd : options.Nodup) :
    (updateOptions getData options n).is_loaded = true ∧
    (∀ e, getData opt = .error e →
      alookup (updateOptions getData options n).dict opt = alookup n.dict opt) ∧
    (∀ v, getData opt = .ok v →
      alookup (updateOptions getData options n).dict opt = some v) := by
  refine ⟨rfl, ?_, ?_⟩
  · intro e he
    show alookup (options.foldl _ n.dict) opt = alookup n.dict opt
    rw [updateFold_lookup getData options n.dict opt hmem hnd, he]
  · intro v hv
    show alookup (options.foldl _ n.dict) opt = some v
    rw [updateFold_lookup getData options n.dict opt hmem hnd, hv]

/-- C8 witness: with a loader that finds `params` but raises for `outs`,
`update_options` loads `params`, leaves `outs` at its default, and sets
`is_loaded`. -/
theorem c8_witness :
    (updateOptions
        (fun o => if o = "params" then .ok (.pyInt 42) else .error .fileNotFound)
        ["params", "outs"] ⟨"X", [("params", .pyNone), ("outs", .pyNone)], false⟩).is_loaded
      = true ∧
    alookup (updateOptions
        (fun o => if o = "params" then .ok (.pyInt 42) else .error .fileNotFound)
        ["params", "outs"] ⟨"X", [("params", .pyNone), ("outs", .pyNone)], false⟩).dict
      "outs" = alookup [("params", PyValue.pyNone), ("outs", PyValue.pyNone)] "outs" ∧
    alookup (updateOptions
        (fun o => if o = "params" then .ok (.pyInt 42) else .error .fileNotFound)
        ["params", "outs"] ⟨"X", [("params", .pyNone), ("outs", .pyNone)], false⟩).dict
      "params" = some (.pyInt 42) :=
  ⟨(c8_update_options_tolerates_missing
      (fun o => if o = "params" then .ok (.pyInt 42) else .error .fileNotFound)
      ["params", "outs"] ⟨"X", [("params", .pyNone), ("outs", .pyNone)], false⟩
      "outs" (by decide) (by decide)).1,
    (c8_update_options_tolerates_missing
      (fun o => if o = "params" then .ok (.pyInt 42) else .error .fileNotFound)
      ["params", "outs"] ⟨"X", [("params", .pyNone), ("outs", .pyNone)], false⟩
      "outs" (by decide) (by decide)).2.1 .fileNotFound rfl,
    (c8_update_options_tolerates_missing
      (fun o => if o = "params" then .ok (.pyInt 42) else .error .fileNotFound)
      ["params", "outs"] ⟨"X", [("params", .pyNone), ("outs", .pyNone)], false⟩
      "params" (by decide) (by decide)).2.2 (.pyInt 42) rfl⟩

/-- C9: `update_run_count` increases the run counter by exactly one
(initializing a fresh RUNNING state with counter 1 when no state exists),
and writes `node-meta.json` holding the uuid and the new counter;
`from_rev` reads the counter back, defaulting to 0 when the file is
absent; `restarted` holds exactly when the counter exceeds 1. -/
theorem c9_run_count_monotone_and_restarted (n : NodeInst) (cls : NodeClass)
    (store : Store) (u nm : String) (remote rev : Option String)
    (running lazyE : Bool) :
    (n.update_run_count).1.state.run_count = n.state.run_count + 1 ∧
    (n.update_run_count).2 = (n.uuid, n.state.run_count + 1) ∧
    (n.stateDict = none →
      (n.update_run_count).1.stateDict =
        some { name := n.nameAttr, remote := some ".", rev := none, run_count := 1,
               state := .RUNNING, lazy_evaluation := true, tmp_path := none,
               group := none }) ∧
    (∀ inst tr, cls.from_rev store u (some nm) remote rev running lazyE =
        .ok (inst, tr) →
      inst.state.run_count = (alookup store.nodeMeta nm).getD 0) ∧
    (∀ s : StateDict, s.restarted = true ↔ s.run_count > 1) := by
  refine ⟨?_, ?_, ?_, ?_, ?_⟩
  · cases hsd : n.stateDict <;>
      simp [NodeInst.update_run_count, NodeInst.state, hsd, defaultStateDict]
  · cases hsd : n.stateDict <;>
      simp [NodeInst.update_run_count, NodeInst.state, hsd, defaultStateDict]
  · intro hsd
    simp [NodeInst.update_run_count, hsd]
  · intro inst tr h
    cases lazyE with
    | true =>
        rw [from_rev_lazy_eq] at h
        injection h with h'
        injection h' with h₁ h₂
        subst h₁
        rfl
    | false =>
        rw [from_rev_eager_eq] at h
        have hsd := (eagerLoad_stateDict store cls.fieldNames _ inst tr h).1
        simp [NodeInst.state, hsd]
  · intro s
    simp [StateDict.restarted]

/-- C9 witness: a state-less node gets a fresh RUNNING state with counter
1, and a node loaded from a store whose `node-meta.json` records 3 runs
reads back counter 3. -/
theorem c9_witness :
    (NodeInst.update_run_count
        ⟨⟨"X", []⟩, "u", [("name", .pyStr "X")], none⟩).1.stateDict =
      some ⟨some "X", some ".", none, 1, .RUNNING, true, none, none⟩ ∧
    (⟨⟨"X", []⟩, "u", [("name", .pyStr "X")],
        some ⟨some "X", some ".", none, 3, .FINISHED, true, none, none⟩⟩
          : NodeInst).state.run_count =
      (alookup (⟨[("X", 3)], []⟩ : Store).nodeMeta "X").getD 0 :=
  ⟨(c9_run_count_monotone_and_restarted
      ⟨⟨"X", []⟩, "u", [("name", .pyStr "X")], none⟩ ⟨"X", []⟩ ⟨[], []⟩ "u" "X"
      (some ".") none false true).2.2.1 rfl,
    (c9_run_count_monotone_and_restarted
      ⟨⟨"X", []⟩, "u", [("name", .pyStr "X")], none⟩ ⟨"X", []⟩ ⟨[("X", 3)], []⟩
      "u" "X" (some ".") none false true).2.2.2.1
      ⟨⟨"X", []⟩, "u", [("name", .pyStr "X")],
        some ⟨some "X", some ".", none, 3, .FINISHED, true, none, none⟩⟩ []
      (by rfl)⟩

theorem filterStageLock_aupdate_not_kept :
    ∀ (lock : List (String × PyValue)) (k : String) (v : PyValue),
      (k == "cmd" || k == "deps" || k == "params") = false →
      filterStageLock (aupdate lock k v) = filterStageLock lock := by
  intro lock
  induction lock with
  | nil =>
      intro k v hk
      simp [filterStageLock, aupdate, hk]
  | cons kv t ih =>
      intro k v hk
      obtain ⟨k', w⟩ := kv
      by_cases hkk : k' = k
      · subst hkk
        simp [filterStageLock, aupdate, hk]
      · simp only [aupdate, if_neg hkk]
        show filterStageLock ((k', w) :: aupdate t k v) = filterStageLock ((k', w) :: t)
        have hih := ih k v hk
        simp only [filterStageLock] at hih ⊢
        simp only [List.filter_cons, hih]

/-- C10: the stage hash depends only on the `cmd`, `deps` and `params`
entries of the stage lockfile — the filtered lockfile contains no other
keys and changing or adding an `outs` entry leaves the hash unchanged for
every digest function — and calling it with `include_outs=True` raises the
not-implemented error. -/
theorem c10_stage_hash_ignores_outs (digest : List (String × PyValue) → String)
    (lock lock' : List (String × PyValue)) (v : PyValue) :
    getStageHash digest lock true = .error "Include outs is not implemented yet." ∧
    (filterStageLock lock = filterStageLock lock' →
      getStageHash digest lock false = getStageHash digest lock' false) ∧
    getStageHash digest (aupdate lock "outs" v) false =
      getStageHash digest lock false ∧
    (∀ kv ∈ filterStageLock lock,
      kv.1 = "cmd" ∨ kv.1 = "deps" ∨ kv.1 = "params") := by
  refine ⟨rfl, ?_, ?_, ?_⟩
  · intro h
    simp [getStageHash, h]
  · simp [getStageHash,
      filterStageLock_aupdate_not_kept lock "outs" v (by decide)]
  · intro kv hkv
    have h2 := (List.mem_filter.mp hkv).2
    exact or_assoc.mp (by simpa using h2)

/-- C10 witness: two lockfiles differing only in their `outs` entry hash
identically, for a concrete digest function. -/
theorem c10_witness :
    getStageHash (fun l => toString l.length)
        [("cmd", PyValue.pyStr "zntrack run"), ("outs", PyValue.pyInt 1)] false =
      getStageHash (fun l => toString l.length)
        [("cmd", PyValue.pyStr "zntrack run"), ("outs", PyValue.pyInt 2)] false :=
  (c10_stage_hash_ignores_outs (fun l => toString l.length)
      [("cmd", PyValue.pyStr "zntrack run"), ("outs", PyValue.pyInt 1)]
      [("cmd", PyValue.pyStr "zntrack run"), ("outs", PyValue.pyInt 2)]
      (PyValue.pyInt 0)).2.1 (by decide)

end ZnTrack
